import Mathlib

/-!
Verification of the response-dispatch synthesis code in
`pkg/codegen/template_helpers.go` (function `genResponseUnmarshal` and its
helpers `buildUnmarshalCase` and `getConditionOfResponseName`).

The Go code is shallowly embedded: Go maps are modelled as association
lists with last-writer-wins update (`mapSet`) and key lookup (`mapGet`);
Go's `sort.Strings` is modelled by insertion sort over byte-lexicographic
string comparison (`strLe`; on UTF-8 data, byte order coincides with code
point order, so comparing `String.data` is faithful); printing to stderr
is modelled by accumulating the printed lines in the generation state.
-/

/-- Byte-lexicographic comparison of character lists, the order used by
Go's `sort.Strings` on UTF-8 strings. -/
def charListLe : List Char → List Char → Bool
  | [], _ => true
  | _ :: _, [] => false
  | a :: as, b :: bs => if a < b then true else if b < a then false else charListLe as bs

/-- Lexicographic `≤` on strings, as Go's `sort.Strings` orders them. -/
def strLe (a b : String) : Bool :=
  charListLe a.data b.data

/-- The ordering relation used for sorting map keys. -/
def strLeP (a b : String) : Prop :=
  strLe a b = true

instance : DecidableRel strLeP :=
  fun a b => instDecidableEqBool (strLe a b) true

/-- Go map update `m[k] = v`: overwrite the entry for `k` in place if the
key is present, otherwise append a fresh entry. -/
def mapSet (m : List (String × String)) (k : String) (v : String) : List (String × String) :=
  if m.any (fun p => p.1 == k) then
    m.map (fun p => if p.1 == k then (k, v) else p)
  else
    m ++ [(k, v)]

/-- Go map read `m[k]`: the value stored at key `k`, if any. -/
def mapGet {α : Type} (m : List (String × α)) (k : String) : Option α :=
  (m.find? (fun p => p.1 == k)).map Prod.snd

/-- Modelled from the spec: `SortedStringKeys` (defined in the repository's
utility file, which is not part of the excerpt) returns the keys of a
string-keyed map in sorted order, giving the "sorted key orders" iteration
the spec requires. -/
def SortedStringKeys (m : List (String × String)) : List String :=
  List.insertionSort strLeP (m.map Prod.fst)

/-- Modelled from the spec: `SortedContentKeys` (defined in the repository's
utility file, which is not part of the excerpt) returns the keys of a
content map in sorted (lexicographic) order.  A content map is modelled by
its list of keys, since `genResponseUnmarshal` only reads the keys and the
size of the map. -/
def SortedContentKeys (content : List String) : List String :=
  List.insertionSort strLeP content

/-- Modelled from the spec: `StringInArray` (defined in the repository's
utility file, which is not part of the excerpt) tests membership of a
string in a string slice. -/
def StringInArray (s : String) (arr : List String) : Bool :=
  arr.contains s

/-- Constant `echo.MIMEApplicationJSON` of the external echo library:
the standard JSON media type. -/
def MIMEApplicationJSON : String := "application/json"

/-- Constant `echo.MIMEApplicationXML` of the external echo library:
the standard XML media type. -/
def MIMEApplicationXML : String := "application/xml"

/-- Constant `echo.MIMETextXML` of the external echo library:
the text variant of the XML media type. -/
def MIMETextXML : String := "text/xml"

/-- Constant `echo.HeaderContentType` of the external echo library. -/
def HeaderContentType : String := "Content-Type"

/-- The three sort-prefix constants of `template_helpers.go` ("These allow
the case statements to be sorted later"). -/
def prefixMostSpecific : String := "3"

/-- Second sort-prefix constant of `template_helpers.go`. -/
def prefixLessSpecific : String := "6"

/-- Third sort-prefix constant of `template_helpers.go`; the only one the
excerpt actually uses. -/
def prefixLeastSpecific : String := "9"

/-- Suffix constant `responseTypeSuffix` of `template_helpers.go`. -/
def responseTypeSuffix : String := "Response"

/-- The JSON content-type family table `contentTypesJSON`. -/
def contentTypesJSON : List String := [MIMEApplicationJSON, "text/x-json"]

/-- The YAML content-type family table `contentTypesYAML`. -/
def contentTypesYAML : List String :=
  ["application/yaml", "application/x-yaml", "text/yaml", "text/x-yaml"]

/-- The XML content-type family table `contentTypesXML`. -/
def contentTypesXML : List String := [MIMEApplicationXML, MIMETextXML]

/-- A schema, of which `genResponseUnmarshal` only uses the generated type
declaration text `TypeDecl()`. -/
structure SchemaDescriptor where
  typeDeclText : String
deriving DecidableEq

/-- The `TypeDecl()` method of a schema: its Go type declaration text. -/
def SchemaDescriptor.TypeDecl (s : SchemaDescriptor) : String :=
  s.typeDeclText

/-- `ResponseTypeDefinition`: one classified (response key, content type,
target type) record, as consumed by `genResponseUnmarshal`. -/
structure ResponseTypeDefinition where
  TypeName : String
  Schema : SchemaDescriptor
  ResponseName : String
  ContentTypeName : String
deriving DecidableEq

/-- The value of one OpenAPI response: `genResponseUnmarshal` reads only
its content map, modelled by the list of declared content-type keys. -/
structure ResponseValue where
  Content : List String
deriving DecidableEq

/-- A `ResponseRef`: a possibly-nil reference to a response value. -/
structure ResponseRef where
  Value : Option ResponseValue
deriving DecidableEq

/-- An `OperationDefinition`, holding the fields `genResponseUnmarshal`
reads: the operation id, the response map `op.Spec.Responses`, and the
result of `GetResponseTypeDefinitions` (that method lives outside the
excerpt, so it is carried as data: an error value models the failure the
spec says must propagate). -/
structure OperationDefinition where
  OperationId : String
  Responses : List (String × ResponseRef)
  TypeDefinitionsResult : Except String (List ResponseTypeDefinition)

/-- Modelled from the spec: `GetResponseTypeDefinitions` (defined outside
the excerpt) deterministically classifies the operation's responses, and
its failure propagates; it is modelled as the stored classification
result. -/
def OperationDefinition.GetResponseTypeDefinitions (op : OperationDefinition) :
    Except String (List ResponseTypeDefinition) :=
  op.TypeDefinitionsResult

/-- Return the statusCode comparison clause from the response name
(`getConditionOfResponseName`). -/
def getConditionOfResponseName (statusCodeVar responseName : String) : String :=
  if responseName = "default" then
    "true"
  else if responseName = "1XX" ∨ responseName = "2XX" ∨ responseName = "3XX" ∨
      responseName = "4XX" ∨ responseName = "5XX" then
    statusCodeVar ++ " / 100 == " ++ responseName.take 1
  else
    statusCodeVar ++ " == " ++ responseName

/-- `buildUnmarshalCase`: builds an unmarshalling case clause (sort key and
clause text) for a content type. -/
def buildUnmarshalCase (typeDefinition : ResponseTypeDefinition) (caseAction : String)
    (contentType : String) : String × String :=
  (prefixLeastSpecific ++ "." ++ contentType ++ "." ++ typeDefinition.ResponseName,
   "case strings.Contains(rsp.Header.Get(\"" ++ HeaderContentType ++ "\"), \"" ++
     contentType ++ "\") && " ++
     getConditionOfResponseName "rsp.StatusCode" typeDefinition.ResponseName ++ ":\n" ++
     caseAction ++ "\n")

/-- The mutable state accumulated by the loops of `genResponseUnmarshal`:
the two clause maps and the lines printed to stderr. -/
structure GenState where
  handled : List (String × String)
  unhandled : List (String × String)
  stderrLog : List String
deriving DecidableEq

/-- Stores a handled case clause: `handledCaseClauses[caseKey] = caseClause`. -/
def setHandled (st : GenState) (kc : String × String) : GenState :=
  { st with handled := mapSet st.handled kc.1 kc.2 }

/-- Stores an unhandled case clause keyed by the prefixed clause key:
`unhandledCaseClauses[prefixLeastSpecific+caseClauseKey] = ...`. -/
def setUnhandled (st : GenState) (caseClauseKey caseAction : String) : GenState :=
  GenState.mk st.handled
    (mapSet st.unhandled (prefixLeastSpecific ++ caseClauseKey)
      (caseClauseKey ++ "\n" ++ caseAction ++ "\n"))
    st.stderrLog

/-- Records the diagnostic line printed to stderr for a nil response. -/
def logNilValue (st : GenState) (line : String) : GenState :=
  { st with stderrLog := st.stderrLog ++ [line] }

/-- The decode-and-assign body generated for one handled record, with the
decoding package (`json`, `yaml` or `xml`) as parameter. -/
def decodeAction (typeDefinition : ResponseTypeDefinition) (pkg : String) : String :=
  "var dest " ++ typeDefinition.Schema.TypeDecl ++ "\n" ++
  "if err := " ++ pkg ++ ".Unmarshal(bodyBytes, &dest); err != nil \x7b \n" ++
  " return nil, err \n" ++
  "\x7d\n" ++
  "response." ++ typeDefinition.TypeName ++ " = &dest"

/-- Body of the inner loop of `genResponseUnmarshal` over the sorted
content-type keys of one response. -/
def processContent (typeDefinition : ResponseTypeDefinition) (st : GenState)
    (contentTypeName : String) : GenState :=
  if typeDefinition.TypeName = "interface\x7b\x7d" then
    st
  else if StringInArray contentTypeName contentTypesJSON then
    if typeDefinition.ContentTypeName = contentTypeName then
      setHandled st (buildUnmarshalCase typeDefinition (decodeAction typeDefinition "json") "json")
    else st
  else if StringInArray contentTypeName contentTypesYAML then
    if typeDefinition.ContentTypeName = contentTypeName then
      setHandled st (buildUnmarshalCase typeDefinition (decodeAction typeDefinition "yaml") "yaml")
    else st
  else if StringInArray contentTypeName contentTypesXML then
    if typeDefinition.ContentTypeName = contentTypeName then
      setHandled st (buildUnmarshalCase typeDefinition (decodeAction typeDefinition "xml") "xml")
    else st
  else
    setUnhandled st
      ("case " ++ getConditionOfResponseName "rsp.StatusCode" typeDefinition.ResponseName ++ ":")
      ("// Content-type (" ++ contentTypeName ++ ") unsupported")

/-- Body of the outer loop of `genResponseUnmarshal` over the classified
type definitions: look up the response, skip it when absent, log and skip
it when its value is nil, emit the no-content clause when it declares no
content, and otherwise process each content type in sorted order. -/
def processTypeDef (op : OperationDefinition) (st : GenState)
    (typeDefinition : ResponseTypeDefinition) : GenState :=
  match mapGet op.Responses typeDefinition.ResponseName with
  | none => st
  | some responseRef =>
    match responseRef.Value with
    | none =>
      logNilValue st
        ("Response " ++ op.OperationId ++ "." ++ typeDefinition.ResponseName ++
          " has nil value\n")
    | some value =>
      if value.Content.length = 0 then
        setUnhandled st
          ("case " ++ getConditionOfResponseName "rsp.StatusCode" typeDefinition.ResponseName
            ++ ":")
          "break // No content-type"
      else
        (SortedContentKeys value.Content).foldl (processContent typeDefinition) st

/-- The state after the main loop of `genResponseUnmarshal` has processed
every classified type definition, starting from empty maps. -/
def genStateOf (op : OperationDefinition) (typeDefinitions : List ResponseTypeDefinition) :
    GenState :=
  typeDefinitions.foldl (processTypeDef op) ⟨[], [], []⟩

/-- The key order in which `genResponseUnmarshal` emits its case clauses:
the sorted keys of the handled map followed by the sorted keys of the
unhandled map. -/
def emittedClauseKeys (st : GenState) : List String :=
  SortedStringKeys st.handled ++ SortedStringKeys st.unhandled

/-- The case clauses of the generated switch statement, in emission order:
each handled clause in sorted key order, then each unhandled clause in
sorted key order. -/
def emittedCaseClauses (st : GenState) : List String :=
  (SortedStringKeys st.handled).map (fun k => (mapGet st.handled k).getD "") ++
  (SortedStringKeys st.unhandled).map (fun k => (mapGet st.unhandled k).getD "")

/-- `genResponseUnmarshal`: generates the unmarshalling switch fragment for
an operation.  `none` models the Go panic on a classification error;
`some s` is the returned fragment. -/
def genResponseUnmarshal (op : OperationDefinition) : Option String :=
  match op.GetResponseTypeDefinitions with
  | .error _ => none
  | .ok typeDefinitions =>
    if typeDefinitions.length = 0 then
      some ""
    else
      let st := genStateOf op typeDefinitions
      if st.handled.length + st.unhandled.length = 0 then
        some ""
      else
        some ("switch \x7b\n" ++
          String.join ((emittedCaseClauses st).map (fun c => c ++ "\n")) ++
          "\x7d\n")

/-! Order-theoretic facts about the byte-lexicographic comparison. -/

theorem charListLe_refl : ∀ l : List Char, charListLe l l = true
  | [] => rfl
  | a :: as => by simp [charListLe, lt_irrefl, charListLe_refl as]

theorem charListLe_total : ∀ l₁ l₂ : List Char, charListLe l₁ l₂ = true ∨ charListLe l₂ l₁ = true
  | [], _ => Or.inl rfl
  | _ :: _, [] => Or.inr rfl
  | a :: as, b :: bs => by
    rcases lt_trichotomy a b with h | h | h
    · exact Or.inl (by simp [charListLe, h])
    · subst h
      rcases charListLe_total as bs with h' | h'
      · exact Or.inl (by simp [charListLe, lt_irrefl, h'])
      · exact Or.inr (by simp [charListLe, lt_irrefl, h'])
    · exact Or.inr (by simp [charListLe, h])

theorem charListLe_trans {l₁ l₂ l₃ : List Char} (h₁ : charListLe l₁ l₂ = true)
    (h₂ : charListLe l₂ l₃ = true) : charListLe l₁ l₃ = true := by
  induction l₁ generalizing l₂ l₃ with
  | nil => rfl
  | cons a as ih =>
    cases l₂ with
    | nil => simp [charListLe] at h₁
    | cons b bs =>
      cases l₃ with
      | nil => simp [charListLe] at h₂
      | cons c cs =>
        simp only [charListLe] at h₁ h₂ ⊢
        by_cases hab : a < b
        · by_cases hbc : b < c
          · simp [lt_trans hab hbc]
          · by_cases hcb : c < b
            · simp [hbc, hcb] at h₂
            · have hbcEq : b = c := le_antisymm (not_lt.mp hcb) (not_lt.mp hbc)
              subst hbcEq
              simp [hab]
        · by_cases hba : b < a
          · simp [hab, hba] at h₁
          · have habEq : a = b := le_antisymm (not_lt.mp hba) (not_lt.mp hab)
            subst habEq
            simp only [hab, lt_irrefl, if_false] at h₁ ⊢
            by_cases hac : a < c
            · simp [hac]
            · by_cases hca : c < a
              · simp [hac, hca] at h₂
              · simp only [hac, hca, if_false] at h₂ ⊢
                exact ih h₁ h₂

theorem charListLe_antisymm : ∀ {l₁ l₂ : List Char}, charListLe l₁ l₂ = true →
    charListLe l₂ l₁ = true → l₁ = l₂
  | [], [], _, _ => rfl
  | [], _ :: _, _, h₂ => by simp [charListLe] at h₂
  | _ :: _, [], h₁, _ => by simp [charListLe] at h₁
  | a :: as, b :: bs, h₁, h₂ => by
    by_cases hab : a < b
    · simp [charListLe, hab] at h₂
      exact absurd h₂ (asymm hab)
    · by_cases hba : b < a
      · simp [charListLe, hab, hba] at h₁
      · have habEq : a = b := le_antisymm (not_lt.mp hba) (not_lt.mp hab)
        subst habEq
        simp only [charListLe, lt_irrefl, if_false] at h₁ h₂
        rw [charListLe_antisymm h₁ h₂]

theorem charListLe_cons_self (c : Char) (l₁ l₂ : List Char) :
    charListLe (c :: l₁) (c :: l₂) = charListLe l₁ l₂ := by
  simp [charListLe, lt_irrefl]

theorem charListLe_append_same : ∀ (p l₁ l₂ : List Char),
    charListLe (p ++ l₁) (p ++ l₂) = charListLe l₁ l₂
  | [], _, _ => rfl
  | c :: cs, l₁, l₂ => by
    simp only [List.cons_append, charListLe_cons_self]
    exact charListLe_append_same cs l₁ l₂

theorem charListLe_cons_lt {a b : Char} (h : a < b) (l₁ l₂ : List Char) :
    charListLe (a :: l₁) (b :: l₂) = true := by
  simp [charListLe, h]

theorem charListLe_cons_gt {a b : Char} (h : b < a) (l₁ l₂ : List Char) :
    charListLe (a :: l₁) (b :: l₂) = false := by
  simp [charListLe, h, asymm h]

theorem stringData_inj {a b : String} (h : a.data = b.data) : a = b := by
  cases a
  cases b
  exact congrArg String.mk h

theorem strLe_refl (a : String) : strLe a a = true :=
  charListLe_refl a.data

instance : IsTotal String strLeP :=
  ⟨fun a b => charListLe_total a.data b.data⟩

instance : IsTrans String strLeP :=
  ⟨fun _ _ _ h₁ h₂ => charListLe_trans h₁ h₂⟩

instance : IsAntisymm String strLeP :=
  ⟨fun _ _ h₁ h₂ => stringData_inj (charListLe_antisymm h₁ h₂)⟩

instance : IsRefl String strLeP :=
  ⟨fun a => charListLe_refl a.data⟩

theorem strLeP_of_false {a b : String} (h : strLe b a = false) : strLeP a b := by
  rcases charListLe_total a.data b.data with h' | h'
  · exact h'
  · exact absurd h' (by simp [strLe] at h; simp [strLe, h])

theorem strLe_ne_of_false {a b : String} (h : strLe b a = false) : a ≠ b := by
  rintro rfl
  rw [strLe_refl] at h
  simp at h

/-! Facts about the Go-map model `mapSet` / `mapGet`. -/

theorem mapGet_nil {α : Type} (k : String) : mapGet ([] : List (String × α)) k = none :=
  rfl

theorem find?_map_update : ∀ (m : List (String × String)) (k v : String),
    (∃ p ∈ m, p.1 = k) →
    (m.map (fun p => if p.1 == k then (k, v) else p)).find? (fun p => p.1 == k) = some (k, v)
  | [], _, _, h => by simp at h
  | q :: t, k, v, h => by
    by_cases hq : q.1 == k
    · have hrw : (if q.1 == k then (k, v) else q) = (k, v) := by rw [if_pos hq]
      simp only [List.map_cons, hrw]
      rw [List.find?_cons_of_pos _ (by simp)]
    · have hrw : (if q.1 == k then (k, v) else q) = q := by rw [if_neg hq]
      have hqF : (q.1 == k) = false := by simpa using hq
      rw [List.map_cons, hrw]
      simp only [List.find?, hqF]
      refine find?_map_update t k v ?_
      obtain ⟨p, hp, hpk⟩ := h
      rcases List.mem_cons.mp hp with hp | hp
      · subst hp
        exact absurd (by simp [hpk]) hq
      · exact ⟨p, hp, hpk⟩

theorem find?_map_update_ne : ∀ (m : List (String × String)) (k k' v : String), k' ≠ k →
    (m.map (fun p => if p.1 == k then (k, v) else p)).find? (fun p => p.1 == k') =
      m.find? (fun p => p.1 == k')
  | [], _, _, _, _ => rfl
  | q :: t, k, k', v, h => by
    by_cases hq : q.1 == k
    · have hrw : (if q.1 == k then (k, v) else q) = (k, v) := by rw [if_pos hq]
      have hqk : q.1 = k := by simpa using hq
      have h1 : (k == k') = false := by simp [Ne.symm h]
      have h2 : (q.1 == k') = false := by simp [hqk, Ne.symm h]
      simp only [List.map_cons, hrw, List.find?, h1, h2]
      exact find?_map_update_ne t k k' v h
    · have hrw : (if q.1 == k then (k, v) else q) = q := by rw [if_neg hq]
      simp only [List.map_cons, hrw]
      by_cases hq' : (q.1 == k') = true
      · simp only [List.find?, hq']
      · have hq'F : (q.1 == k') = false := by simpa using hq'
        simp only [List.find?, hq'F]
        exact find?_map_update_ne t k k' v h

theorem mapGet_mapSet_self (m : List (String × String)) (k v : String) :
    mapGet (mapSet m k v) k = some v := by
  unfold mapSet
  by_cases hm : m.any (fun p => p.1 == k) = true
  · rw [if_pos hm]
    unfold mapGet
    rw [find?_map_update m k v]
    · rfl
    · obtain ⟨p, hp, hpk⟩ := List.any_eq_true.mp hm
      exact ⟨p, hp, by simpa using hpk⟩
  · rw [if_neg hm]
    unfold mapGet
    rw [List.find?_append]
    have hnone : m.find? (fun p => p.1 == k) = none := by
      rw [List.find?_eq_none]
      intro x hx hxk
      exact hm (List.any_eq_true.mpr ⟨x, hx, hxk⟩)
    rw [hnone]
    simp [List.find?]

theorem mapGet_mapSet_ne (m : List (String × String)) {k k' : String} (v : String)
    (h : k' ≠ k) : mapGet (mapSet m k v) k' = mapGet m k' := by
  unfold mapSet
  by_cases hm : m.any (fun p => p.1 == k) = true
  · rw [if_pos hm]
    unfold mapGet
    rw [find?_map_update_ne m k k' v h]
  · rw [if_neg hm]
    unfold mapGet
    rw [List.find?_append]
    have hkk : (k == k') = false := by simp [Ne.symm h]
    have hone : List.find? (fun p => p.1 == k') [(k, v)] = none := by
      simp only [List.find?, hkk]
    rw [hone]
    cases m.find? (fun p => p.1 == k') <;> rfl

theorem keys_mapSet (m : List (String × String)) (k v : String) :
    (mapSet m k v).map Prod.fst =
      if m.any (fun p => p.1 == k) then m.map Prod.fst else m.map Prod.fst ++ [k] := by
  unfold mapSet
  by_cases hm : m.any (fun p => p.1 == k) = true
  · rw [if_pos hm, if_pos hm, List.map_map]
    apply List.map_congr_left
    intro p _
    by_cases hpk : p.1 = k
    · simp [Function.comp, hpk]
    · simp [Function.comp, hpk]
  · rw [if_neg hm, if_neg hm]
    simp

theorem nodup_keys_mapSet (m : List (String × String)) (k v : String)
    (h : (m.map Prod.fst).Nodup) : ((mapSet m k v).map Prod.fst).Nodup := by
  rw [keys_mapSet]
  by_cases hm : m.any (fun p => p.1 == k) = true
  · rw [if_pos hm]
    exact h
  · rw [if_neg hm]
    rw [List.nodup_append]
    refine ⟨h, List.nodup_singleton k, ?_⟩
    intro x hx hk
    simp only [List.mem_singleton] at hk
    subst hk
    obtain ⟨p, hp, hpk⟩ := List.mem_map.mp hx
    exact hm (List.any_eq_true.mpr ⟨p, hp, by simp [hpk]⟩)

theorem mem_keys_mapSet_of_mem (m : List (String × String)) (k v : String) {k' : String}
    (h : k' ∈ m.map Prod.fst) : k' ∈ (mapSet m k v).map Prod.fst := by
  rw [keys_mapSet]
  by_cases hm : m.any (fun p => p.1 == k) = true
  · rw [if_pos hm]
    exact h
  · rw [if_neg hm]
    exact List.mem_append_left _ h

theorem mem_keys_mapSet_self (m : List (String × String)) (k v : String) :
    k ∈ (mapSet m k v).map Prod.fst := by
  rw [keys_mapSet]
  by_cases hm : m.any (fun p => p.1 == k) = true
  · rw [if_pos hm]
    obtain ⟨p, hp, hpk⟩ := List.any_eq_true.mp hm
    exact List.mem_map.mpr ⟨p, hp, by simpa using hpk⟩
  · rw [if_neg hm]
    exact List.mem_append_right _ (List.mem_singleton.mpr rfl)

theorem mem_keys_mapSet_elim (m : List (String × String)) (k v : String) {k' : String}
    (h : k' ∈ (mapSet m k v).map Prod.fst) : k' = k ∨ k' ∈ m.map Prod.fst := by
  rw [keys_mapSet] at h
  by_cases hm : m.any (fun p => p.1 == k) = true
  · rw [if_pos hm] at h
    exact Or.inr h
  · rw [if_neg hm] at h
    rcases List.mem_append.mp h with h | h
    · exact Or.inr h
    · exact Or.inl (List.mem_singleton.mp h)

theorem mem_keys_of_mapGet {α : Type} {m : List (String × α)} {k : String} {v : α}
    (h : mapGet m k = some v) : k ∈ m.map Prod.fst := by
  unfold mapGet at h
  cases hf : m.find? (fun p => p.1 == k) with
  | none => rw [hf] at h; simp at h
  | some p =>
    have hm := List.mem_of_find?_eq_some hf
    have hp := List.find?_some hf
    exact List.mem_map.mpr ⟨p, hm, by simpa using hp⟩

/-! Generic fold helpers. -/

theorem foldl_invariant {α β : Type} (P : β → Prop) (f : β → α → β) (l : List α) (b : β)
    (hstep : ∀ st x, P st → P (f st x)) (hb : P b) : P (l.foldl f b) := by
  induction l generalizing b with
  | nil => exact hb
  | cons x t ih => exact ih (f b x) (hstep b x hb)

theorem foldl_fixed {α β : Type} (f : β → α → β) (l : List α) (b : β)
    (hstep : ∀ st x, f st x = st) : l.foldl f b = b := by
  induction l generalizing b with
  | nil => rfl
  | cons x t ih => rw [List.foldl_cons, hstep, ih]

theorem foldl_ext {α β : Type} (f g : β → α → β) (l : List α) (b : β)
    (h : ∀ st x, f st x = g st x) : l.foldl f b = l.foldl g b := by
  induction l generalizing b with
  | nil => rfl
  | cons x t ih => rw [List.foldl_cons, List.foldl_cons, h, ih]

/-! Shape invariants of the clause maps built by `genResponseUnmarshal`. -/

/-- Every key the code inserts into the handled clause map has this shape:
the least-specific prefix, a content-type tag, and the response name. -/
def HandledKeyShape (k : String) : Prop :=
  ∃ rn : String, k = "9.json." ++ rn ∨ k = "9.yaml." ++ rn ∨ k = "9.xml." ++ rn

/-- Every key the code inserts into the unhandled clause map has this
shape: the least-specific prefix followed by the textual case clause key
derived from some response name. -/
def UnhandledKeyShape (k : String) : Prop :=
  ∃ rn : String,
    k = prefixLeastSpecific ++
      ("case " ++ getConditionOfResponseName "rsp.StatusCode" rn ++ ":")

theorem json_key_eq (rn : String) :
    prefixLeastSpecific ++ "." ++ "json" ++ "." ++ rn = "9.json." ++ rn := by
  have h : prefixLeastSpecific ++ "." ++ "json" ++ "." = "9.json." := by decide
  rw [h]

theorem yaml_key_eq (rn : String) :
    prefixLeastSpecific ++ "." ++ "yaml" ++ "." ++ rn = "9.yaml." ++ rn := by
  have h : prefixLeastSpecific ++ "." ++ "yaml" ++ "." = "9.yaml." := by decide
  rw [h]

theorem xml_key_eq (rn : String) :
    prefixLeastSpecific ++ "." ++ "xml" ++ "." ++ rn = "9.xml." ++ rn := by
  have h : prefixLeastSpecific ++ "." ++ "xml" ++ "." = "9.xml." := by decide
  rw [h]

/-- Invariant of the generation state: both clause maps have duplicate-free
key lists and every key has the shape the code gives it. -/
def GoodState (st : GenState) : Prop :=
  (st.handled.map Prod.fst).Nodup ∧ (st.unhandled.map Prod.fst).Nodup ∧
  (∀ k ∈ st.handled.map Prod.fst, HandledKeyShape k) ∧
  (∀ k ∈ st.unhandled.map Prod.fst, UnhandledKeyShape k)

theorem goodState_setHandled (st : GenState) {k : String} (v : String)
    (hk : HandledKeyShape k) (h : GoodState st) :
    GoodState { st with handled := mapSet st.handled k v } := by
  obtain ⟨h1, h2, h3, h4⟩ := h
  refine ⟨nodup_keys_mapSet _ _ _ h1, h2, ?_, h4⟩
  intro k' hk'
  rcases mem_keys_mapSet_elim _ _ _ hk' with rfl | hk'
  · exact hk
  · exact h3 k' hk'

theorem goodState_setUnhandled (st : GenState) {k : String} (v : String)
    (hk : UnhandledKeyShape k) (h : GoodState st) :
    GoodState { st with unhandled := mapSet st.unhandled k v } := by
  obtain ⟨h1, h2, h3, h4⟩ := h
  refine ⟨h1, nodup_keys_mapSet _ _ _ h2, h3, ?_⟩
  intro k' hk'
  rcases mem_keys_mapSet_elim _ _ _ hk' with rfl | hk'
  · exact hk
  · exact h4 k' hk'

theorem goodState_setHandledPair (st : GenState) (kc : String × String)
    (hk : HandledKeyShape kc.1) (h : GoodState st) : GoodState (setHandled st kc) := by
  unfold setHandled
  exact goodState_setHandled st kc.2 hk h

theorem goodState_setUnhandledApp (st : GenState) (rn ca : String) (h : GoodState st) :
    GoodState (setUnhandled st
      ("case " ++ getConditionOfResponseName "rsp.StatusCode" rn ++ ":") ca) := by
  unfold setUnhandled
  exact goodState_setUnhandled st _ ⟨rn, rfl⟩ h

theorem goodState_processContent (td : ResponseTypeDefinition) (st : GenState) (ct : String)
    (h : GoodState st) : GoodState (processContent td st ct) := by
  unfold processContent
  split_ifs
  · exact h
  · exact goodState_setHandledPair st _ ⟨td.ResponseName, Or.inl (json_key_eq _)⟩ h
  · exact h
  · exact goodState_setHandledPair st _ ⟨td.ResponseName, Or.inr (Or.inl (yaml_key_eq _))⟩ h
  · exact h
  · exact goodState_setHandledPair st _ ⟨td.ResponseName, Or.inr (Or.inr (xml_key_eq _))⟩ h
  · exact h
  · exact goodState_setUnhandledApp st td.ResponseName _ h

theorem goodState_processTypeDef (op : OperationDefinition) (st : GenState)
    (td : ResponseTypeDefinition) (h : GoodState st) : GoodState (processTypeDef op st td) := by
  rcases hra : mapGet op.Responses td.ResponseName with _ | responseRef
  · simpa only [processTypeDef, hra] using h
  · rcases hv : responseRef.Value with _ | value
    · simp only [processTypeDef, hra, hv]
      exact h
    · by_cases hlen : value.Content.length = 0
      · simp only [processTypeDef, hra, hv]
        rw [if_pos hlen]
        exact goodState_setUnhandledApp st td.ResponseName _ h
      · simp only [processTypeDef, hra, hv]
        rw [if_neg hlen]
        exact foldl_invariant GoodState _ _ st (fun s c => goodState_processContent td s c) h

theorem goodState_genStateOf (op : OperationDefinition)
    (tds : List ResponseTypeDefinition) : GoodState (genStateOf op tds) := by
  unfold genStateOf
  refine foldl_invariant GoodState _ _ _ (fun s t => goodState_processTypeDef op s t) ?_
  exact ⟨List.nodup_nil, List.nodup_nil, by simp, by simp⟩

/-! Facts about the sorted key iteration. -/

theorem sorted_sortedStringKeys (m : List (String × String)) :
    List.Sorted strLeP (SortedStringKeys m) :=
  List.sorted_insertionSort strLeP _

theorem mem_sortedStringKeys {k : String} {m : List (String × String)} :
    k ∈ SortedStringKeys m ↔ k ∈ m.map Prod.fst :=
  (List.perm_insertionSort strLeP _).mem_iff

theorem nodup_sortedStringKeys {m : List (String × String)}
    (h : (m.map Prod.fst).Nodup) : (SortedStringKeys m).Nodup :=
  (List.perm_insertionSort strLeP _).symm.nodup h

theorem sorted_indexOf_lt {l : List String} {a b : String} (hs : List.Sorted strLeP l)
    (ha : a ∈ l) (hb : b ∈ l) (hba : strLe b a = false) :
    l.indexOf a < l.indexOf b := by
  induction l with
  | nil => simp at ha
  | cons x t ih =>
    have hab : a ≠ b := strLe_ne_of_false hba
    rcases List.sorted_cons.mp hs with ⟨hx, ht⟩
    by_cases hxa : x = a
    · subst hxa
      rw [List.indexOf_cons_self]
      have hbx : x ≠ b := hab
      rw [List.indexOf_cons_ne _ hbx]
      exact Nat.succ_pos _
    · have hamem : a ∈ t := by
        rcases List.mem_cons.mp ha with h | h
        · exact absurd h.symm hxa
        · exact h
      have hbx : x ≠ b := by
        rintro rfl
        have := hx a hamem
        rw [strLeP] at this
        rw [this] at hba
        cases hba
      have hbmem : b ∈ t := by
        rcases List.mem_cons.mp hb with h | h
        · exact absurd h.symm hbx
        · exact h
      rw [List.indexOf_cons_ne _ hxa, List.indexOf_cons_ne _ hbx]
      exact Nat.succ_lt_succ (ih ht hamem hbmem)

theorem mem_of_getLast?_eq : ∀ {l : List String} {z : String}, l.getLast? = some z → z ∈ l
  | [], _, h => by simp at h
  | [a], z, h => by
    simp only [List.getLast?_singleton, Option.some.injEq] at h
    simp [h.symm]
  | _ :: b :: t, z, h => by
    rw [List.getLast?_cons_cons] at h
    exact List.mem_cons_of_mem _ (mem_of_getLast?_eq h)

theorem getLast?_eq_some_of_ne_nil : ∀ {l : List String}, l ≠ [] → ∃ z, l.getLast? = some z
  | [], h => absurd rfl h
  | [a], _ => ⟨a, rfl⟩
  | _ :: b :: t, _ => by
    rw [List.getLast?_cons_cons]
    exact getLast?_eq_some_of_ne_nil (by simp)

theorem sorted_le_getLast? : ∀ {l : List String} {x z : String}, List.Sorted strLeP l →
    x ∈ l → l.getLast? = some z → strLeP x z
  | [], _, _, _, hx, _ => absurd hx (by simp)
  | [a], x, z, _, hx, hz => by
    simp only [List.mem_singleton] at hx
    simp only [List.getLast?_singleton, Option.some.injEq] at hz
    subst hx
    subst hz
    exact charListLe_refl _
  | a :: b :: t, x, z, hs, hx, hz => by
    rcases List.sorted_cons.mp hs with ⟨ha, hs'⟩
    rw [List.getLast?_cons_cons] at hz
    rcases List.mem_cons.mp hx with rfl | hx'
    · exact ha z (mem_of_getLast?_eq hz)
    · exact sorted_le_getLast? hs' hx' hz

theorem sorted_getLast?_eq {l : List String} {x : String} (hs : List.Sorted strLeP l)
    (hx : x ∈ l) (hall : ∀ y ∈ l, strLeP y x) : l.getLast? = some x := by
  have hne : l ≠ [] := by
    rintro rfl
    simp at hx
  obtain ⟨z, hz⟩ := getLast?_eq_some_of_ne_nil hne
  have hzl : z ∈ l := mem_of_getLast?_eq hz
  have h₁ : strLeP z x := hall z hzl
  have h₂ : strLeP x z := sorted_le_getLast? hs hx hz
  rw [hz, stringData_inj (charListLe_antisymm h₁ h₂)]

/-! String-data expansions of the generated sort keys. -/

theorem handled_key_data (ct x : String) :
    (prefixLeastSpecific ++ "." ++ ct ++ "." ++ x).data =
      ('9' :: '.' :: (ct.data ++ ['.'])) ++ x.data := by
  have h9 : prefixLeastSpecific.data = ['9'] := rfl
  have hdot : (".": String).data = ['.'] := rfl
  simp [String.data_append, h9, hdot, List.cons_append, List.append_assoc]

theorem unhandled_key_data (rn : String) :
    (prefixLeastSpecific ++
      ("case " ++ getConditionOfResponseName "rsp.StatusCode" rn ++ ":")).data =
      ['9', 'c', 'a', 's', 'e', ' '] ++
        ((getConditionOfResponseName "rsp.StatusCode" rn).data ++ [':']) := by
  have h9 : prefixLeastSpecific.data = ['9'] := rfl
  have hcase : ("case " : String).data = ['c', 'a', 's', 'e', ' '] := rfl
  have hcolon : (":" : String).data = [':'] := rfl
  simp [String.data_append, h9, hcase, hcolon, List.cons_append, List.append_assoc]

theorem cond_data_shape (rn : String) (h : rn ≠ "default") :
    ∃ rest, (getConditionOfResponseName "rsp.StatusCode" rn).data = 'r' :: rest := by
  have hr : ("rsp.StatusCode" : String).data = 'r' :: "sp.StatusCode".data := rfl
  unfold getConditionOfResponseName
  rw [if_neg h]
  by_cases hx : rn = "1XX" ∨ rn = "2XX" ∨ rn = "3XX" ∨ rn = "4XX" ∨ rn = "5XX"
  · rw [if_pos hx]
    refine ⟨"sp.StatusCode".data ++ (" / 100 == ".data ++ (rn.take 1).data), ?_⟩
    simp [String.data_append, hr, List.cons_append, List.append_assoc]
  · rw [if_neg hx]
    refine ⟨"sp.StatusCode".data ++ (" == ".data ++ rn.data), ?_⟩
    simp [String.data_append, hr, List.cons_append, List.append_assoc]

theorem handled_key_strLe_false (ct : String) {a b : String}
    (h : charListLe b.data a.data = false) :
    strLe (prefixLeastSpecific ++ "." ++ ct ++ "." ++ b)
      (prefixLeastSpecific ++ "." ++ ct ++ "." ++ a) = false := by
  unfold strLe
  rw [handled_key_data, handled_key_data, charListLe_append_same]
  exact h

theorem unhandled_key_le_default (rn : String) :
    strLeP
      (prefixLeastSpecific ++
        ("case " ++ getConditionOfResponseName "rsp.StatusCode" rn ++ ":"))
      (prefixLeastSpecific ++
        ("case " ++ getConditionOfResponseName "rsp.StatusCode" "default" ++ ":")) := by
  by_cases h : rn = "default"
  · subst h
    exact charListLe_refl _
  · unfold strLeP strLe
    rw [unhandled_key_data, unhandled_key_data, charListLe_append_same]
    obtain ⟨rest, hrest⟩ := cond_data_shape rn h
    rw [hrest]
    have hd : (getConditionOfResponseName "rsp.StatusCode" "default").data =
        ['t', 'r', 'u', 'e'] := by decide
    rw [hd]
    simp only [List.cons_append]
    exact charListLe_cons_lt (by decide) _ _

theorem handledShape_ne_unhandledShape {k k' : String} (h : HandledKeyShape k)
    (h' : UnhandledKeyShape k') : k ≠ k' := by
  obtain ⟨rn, hk⟩ := h
  obtain ⟨rn', hk'⟩ := h'
  subst hk'
  intro he
  have hd : k.data = ['9', 'c', 'a', 's', 'e', ' '] ++
      ((getConditionOfResponseName "rsp.StatusCode" rn').data ++ [':']) := by
    rw [he]
    exact unhandled_key_data rn'
  have hcc : ('.' : Char) = 'c' := by
    rcases hk with hk | hk | hk <;> subst hk <;> rw [String.data_append] at hd <;>
      simpa using congrArg (fun l => l.get? 1) hd
  exact absurd hcc (by decide)

theorem genResponseUnmarshal_isSome_of_ok {op : OperationDefinition}
    {tds : List ResponseTypeDefinition} (hok : op.GetResponseTypeDefinitions = .ok tds) :
    (genResponseUnmarshal op).isSome = true := by
  simp only [genResponseUnmarshal, hok]
  by_cases h0 : tds.length = 0
  · rw [if_pos h0]
    rfl
  · rw [if_neg h0]
    by_cases h1 : (genStateOf op tds).handled.length + (genStateOf op tds).unhandled.length = 0
    · rw [if_pos h1]
      rfl
    · rw [if_neg h1]
      rfl

theorem switch_fragment_ne_empty (x : String) :
    "switch \x7b\n" ++ x ++ "\x7d\n" ≠ "" := by
  intro h
  have hd := congrArg String.data h
  rw [String.data_append, String.data_append] at hd
  rcases List.append_eq_nil.mp hd with ⟨h1, _⟩
  rcases List.append_eq_nil.mp h1 with ⟨h2, _⟩
  exact absurd h2 (by decide)

/-! Determinism of the synthesis with respect to the enumeration order of
the Go maps an operation carries. -/

/-- Two response references denote the same Go response value: both nil, or
both present with the same content keys (a Go map imposes no order on its
keys, so two enumerations of one map are permutations of each other). -/
def RefEquiv (r₁ r₂ : ResponseRef) : Prop :=
  match r₁.Value, r₂.Value with
  | none, none => True
  | some v₁, some v₂ => v₁.Content.Perm v₂.Content
  | _, _ => False

/-- `RefEquiv“ lifted to optional lookup results. -/
def OptionRefEquiv : Option ResponseRef → Option ResponseRef → Prop
  | none, none => True
  | some r₁, some r₂ => RefEquiv r₁ r₂
  | _, _ => False

/-- Two response maps denote the same Go map: every key resolves to
equivalent references. -/
def ResponsesEquiv (m₁ m₂ : List (String × ResponseRef)) : Prop :=
  ∀ k : String, OptionRefEquiv (mapGet m₁ k) (mapGet m₂ k)

theorem sortedContentKeys_congr {c₁ c₂ : List String} (h : c₁.Perm c₂) :
    SortedContentKeys c₁ = SortedContentKeys c₂ :=
  List.eq_of_perm_of_sorted
    ((List.perm_insertionSort strLeP c₁).trans
      (h.trans (List.perm_insertionSort strLeP c₂).symm))
    (List.sorted_insertionSort strLeP c₁)
    (List.sorted_insertionSort strLeP c₂)

theorem processTypeDef_congr {op₁ op₂ : OperationDefinition}
    (hid : op₁.OperationId = op₂.OperationId)
    (hresp : ResponsesEquiv op₁.Responses op₂.Responses)
    (st : GenState) (td : ResponseTypeDefinition) :
    processTypeDef op₁ st td = processTypeDef op₂ st td := by
  have hk := hresp td.ResponseName
  rcases h₁ : mapGet op₁.Responses td.ResponseName with _ | r₁ <;>
    rcases h₂ : mapGet op₂.Responses td.ResponseName with _ | r₂ <;>
    rw [h₁, h₂] at hk
  · simp only [processTypeDef, h₁, h₂]
  · exact hk.elim
  · exact hk.elim
  · have hk' : RefEquiv r₁ r₂ := hk
    rcases hv₁ : r₁.Value with _ | v₁
    · rcases hv₂ : r₂.Value with _ | v₂
      · simp only [processTypeDef, h₁, h₂, hv₁, hv₂, hid]
      · have hfalse : False := by
          unfold RefEquiv at hk'
          rw [hv₁, hv₂] at hk'
          exact hk'
        exact hfalse.elim
    · rcases hv₂ : r₂.Value with _ | v₂
      · have hfalse : False := by
          unfold RefEquiv at hk'
          rw [hv₁, hv₂] at hk'
          exact hk'
        exact hfalse.elim
      · have hp : v₁.Content.Perm v₂.Content := by
          unfold RefEquiv at hk'
          rw [hv₁, hv₂] at hk'
          exact hk'
        simp only [processTypeDef, h₁, h₂, hv₁, hv₂]
        by_cases hl : v₁.Content.length = 0
        · rw [if_pos hl, if_pos (by rw [← hp.length_eq]; exact hl)]
        · rw [if_neg hl, if_neg (by rw [← hp.length_eq]; exact hl)]
          rw [sortedContentKeys_congr hp]

theorem genStateOf_congr {op₁ op₂ : OperationDefinition}
    (hid : op₁.OperationId = op₂.OperationId)
    (hresp : ResponsesEquiv op₁.Responses op₂.Responses)
    (tds : List ResponseTypeDefinition) :
    genStateOf op₁ tds = genStateOf op₂ tds :=
  foldl_ext _ _ tds _ (fun st td => processTypeDef_congr hid hresp st td)

/-! Claim theorems. -/

/-- Claim C3: for every variable name and response-key string,
`getConditionOfResponseName` returns the literal "true" when the key is
"default"; the text `<var> / 100 == <d>` with `<d>` the key's leading
digit when the key is one of "1XX".."5XX"; and the exact-equality text
`<var> == <key>` for any other key string. -/
theorem getConditionOfResponseName_cases (v k : String) :
    getConditionOfResponseName v "default" = "true" ∧
    ((k = "1XX" ∨ k = "2XX" ∨ k = "3XX" ∨ k = "4XX" ∨ k = "5XX") →
      getConditionOfResponseName v k = v ++ " / 100 == " ++ k.take 1) ∧
    (k ≠ "default" → ¬(k = "1XX" ∨ k = "2XX" ∨ k = "3XX" ∨ k = "4XX" ∨ k = "5XX") →
      getConditionOfResponseName v k = v ++ " == " ++ k) := by
  refine ⟨by simp [getConditionOfResponseName], ?_, ?_⟩
  · intro h
    have hne : k ≠ "default" := by
      rcases h with h | h | h | h | h <;> subst h <;> decide
    unfold getConditionOfResponseName
    rw [if_neg hne, if_pos h]
  · intro h1 h2
    unfold getConditionOfResponseName
    rw [if_neg h1, if_neg h2]

/-- Witness for C3 at the inputs "default", "2XX" and "404". -/
theorem getConditionOfResponseName_cases_witness :
    getConditionOfResponseName "rsp.StatusCode" "default" = "true" ∧
    getConditionOfResponseName "rsp.StatusCode" "2XX" = "rsp.StatusCode / 100 == 2" ∧
    getConditionOfResponseName "rsp.StatusCode" "404" = "rsp.StatusCode == 404" := by
  refine ⟨(getConditionOfResponseName_cases "rsp.StatusCode" "404").1, ?_, ?_⟩
  · have h := (getConditionOfResponseName_cases "rsp.StatusCode" "2XX").2.1
      (Or.inr (Or.inl rfl))
    rw [h]
    decide
  · have h := (getConditionOfResponseName_cases "rsp.StatusCode" "404").2.2
      (by decide) (by decide)
    rw [h]
    decide

/-- Claim C5: `genResponseUnmarshal` returns the empty string, not an empty
switch construct, in exactly two non-error situations: an empty list of
response type definitions, or no handled and no unhandled clause remaining
after filtering; in both situations the result is a non-failure (`some`)
outcome. -/
theorem genResponseUnmarshal_empty_fragment_iff (op : OperationDefinition)
    (tds : List ResponseTypeDefinition) (hok : op.GetResponseTypeDefinitions = .ok tds) :
    (genResponseUnmarshal op).isSome = true ∧
    (genResponseUnmarshal op = some "" ↔
      tds = [] ∨
        ((genStateOf op tds).handled = [] ∧ (genStateOf op tds).unhandled = [])) := by
  refine ⟨genResponseUnmarshal_isSome_of_ok hok, ?_⟩
  simp only [genResponseUnmarshal, hok]
  by_cases h0 : tds.length = 0
  · rw [if_pos h0]
    simp [List.length_eq_zero.mp h0]
  · rw [if_neg h0]
    by_cases h1 : (genStateOf op tds).handled.length + (genStateOf op tds).unhandled.length = 0
    · rw [if_pos h1]
      constructor
      · intro _
        right
        constructor
        · refine List.length_eq_zero.mp ?_
          omega
        · refine List.length_eq_zero.mp ?_
          omega
      · intro _
        rfl
    · rw [if_neg h1]
      constructor
      · intro hcontra
        exact absurd (Option.some.inj hcontra) (switch_fragment_ne_empty _)
      · intro h
        rcases h with h | ⟨hh, hu⟩
        · exact absurd (by rw [h]; rfl : tds.length = 0) h0
        · exact absurd (by rw [hh, hu]; rfl :
            (genStateOf op tds).handled.length + (genStateOf op tds).unhandled.length = 0) h1

/-- Operation with no responses at all, used to witness C5. -/
def opNoResponses : OperationDefinition := ⟨"NoResponses", [], .ok []⟩

/-- Witness for C5: an operation with an empty classification yields the
empty fragment and is still a non-failure outcome. -/
theorem genResponseUnmarshal_empty_fragment_iff_witness :
    opNoResponses.GetResponseTypeDefinitions = .ok [] ∧
    ((genResponseUnmarshal opNoResponses).isSome = true ∧
      (genResponseUnmarshal opNoResponses = some "" ↔
        ([] : List ResponseTypeDefinition) = [] ∨
          ((genStateOf opNoResponses []).handled = [] ∧
            (genStateOf opNoResponses []).unhandled = []))) :=
  ⟨rfl, genResponseUnmarshal_empty_fragment_iff opNoResponses [] rfl⟩

/-- Claim C10: a classified record whose response name is missing from the
operation's response map is skipped silently (no clause, no stderr line);
a record whose response reference has a nil value is skipped after exactly
one diagnostic stderr line; in neither case does generation fail. -/
theorem missing_and_nil_responses_skipped (op : OperationDefinition) (st : GenState)
    (td : ResponseTypeDefinition) :
    (mapGet op.Responses td.ResponseName = none → processTypeDef op st td = st) ∧
    (∀ ref : ResponseRef, mapGet op.Responses td.ResponseName = some ref → ref.Value = none →
      processTypeDef op st td =
        { st with stderrLog := st.stderrLog ++
            ["Response " ++ op.OperationId ++ "." ++ td.ResponseName ++ " has nil value\n"] }) ∧
    (∀ tds : List ResponseTypeDefinition, op.GetResponseTypeDefinitions = .ok tds →
      (genResponseUnmarshal op).isSome = true) := by
  refine ⟨?_, ?_, ?_⟩
  · intro h
    simp only [processTypeDef, h]
  · intro ref h hv
    simp only [processTypeDef, h, hv]
    rfl
  · intro tds hok
    exact genResponseUnmarshal_isSome_of_ok hok

/-- Operation used to witness C10: its map has a nil "500" entry and no
"404" entry, while its classification mentions both. -/
def opSkips : OperationDefinition :=
  ⟨"Op10", [("500", ⟨none⟩)],
   .ok [⟨"T404", ⟨"T404"⟩, "404", "application/json"⟩,
        ⟨"T500", ⟨"T500"⟩, "500", "application/json"⟩]⟩

/-- Witness for C10 on `opSkips`: the "404" record is skipped without a
trace, the "500" record leaves one stderr line, and generation succeeds. -/
theorem missing_and_nil_responses_skipped_witness :
    processTypeDef opSkips ⟨[], [], []⟩ ⟨"T404", ⟨"T404"⟩, "404", "application/json"⟩ =
      ⟨[], [], []⟩ ∧
    processTypeDef opSkips ⟨[], [], []⟩ ⟨"T500", ⟨"T500"⟩, "500", "application/json"⟩ =
      ⟨[], [], ["Response Op10.500 has nil value\n"]⟩ ∧
    (genResponseUnmarshal opSkips).isSome = true := by
  refine ⟨?_, ?_, ?_⟩
  · exact (missing_and_nil_responses_skipped opSkips ⟨[], [], []⟩
      ⟨"T404", ⟨"T404"⟩, "404", "application/json"⟩).1 rfl
  · have h := (missing_and_nil_responses_skipped opSkips ⟨[], [], []⟩
      ⟨"T500", ⟨"T500"⟩, "500", "application/json"⟩).2.1 ⟨none⟩ rfl rfl
    rw [h]
    decide
  · exact (missing_and_nil_responses_skipped opSkips ⟨[], [], []⟩
      ⟨"T404", ⟨"T404"⟩, "404", "application/json"⟩).2.2 _ rfl

theorem json_yaml_key_ne (rn : String) :
    prefixLeastSpecific ++ "." ++ "json" ++ "." ++ rn ≠
      prefixLeastSpecific ++ "." ++ "yaml" ++ "." ++ rn := by
  rw [json_key_eq, yaml_key_eq]
  intro h
  have hd := congrArg String.data h
  rw [String.data_append, String.data_append] at hd
  have hpref := (List.append_inj hd (by decide)).1
  exact absurd hpref (by decide)

theorem json_xml_key_ne (rn : String) :
    prefixLeastSpecific ++ "." ++ "json" ++ "." ++ rn ≠
      prefixLeastSpecific ++ "." ++ "xml" ++ "." ++ rn := by
  rw [json_key_eq, xml_key_eq]
  intro h
  have hd := congrArg (fun s : String => s.data.length) h
  simp only [String.data_append, List.length_append, List.length_cons,
    List.length_nil] at hd
  omega

theorem yaml_xml_key_ne (rn : String) :
    prefixLeastSpecific ++ "." ++ "yaml" ++ "." ++ rn ≠
      prefixLeastSpecific ++ "." ++ "xml" ++ "." ++ rn := by
  rw [yaml_key_eq, xml_key_eq]
  intro h
  have hd := congrArg (fun s : String => s.data.length) h
  simp only [String.data_append, List.length_append, List.length_cons,
    List.length_nil] at hd
  omega

theorem buildUnmarshalCase_key (td : ResponseTypeDefinition) (a ct : String) :
    (buildUnmarshalCase td a ct).1 =
      prefixLeastSpecific ++ "." ++ ct ++ "." ++ td.ResponseName :=
  rfl

theorem setHandled_handled (st : GenState) (kc : String × String) :
    (setHandled st kc).handled = mapSet st.handled kc.1 kc.2 :=
  rfl

theorem setUnhandled_handled (st : GenState) (a b : String) :
    (setUnhandled st a b).handled = st.handled :=
  rfl

/-- Claim C9: the fixed content-type family tables are exactly the listed
media types, and the handled clause keyed for a family is only written when
the iterated content type is a member of that family's table. -/
theorem contentType_family_tables :
    contentTypesJSON = ["application/json", "text/x-json"] ∧
    contentTypesYAML = ["application/yaml", "application/x-yaml", "text/yaml", "text/x-yaml"] ∧
    contentTypesXML = ["application/xml", "text/xml"] ∧
    (∀ (td : ResponseTypeDefinition) (st : GenState) (ct : String),
      mapGet (processContent td st ct).handled
          (prefixLeastSpecific ++ "." ++ "json" ++ "." ++ td.ResponseName) ≠
        mapGet st.handled (prefixLeastSpecific ++ "." ++ "json" ++ "." ++ td.ResponseName) →
      StringInArray ct contentTypesJSON = true) ∧
    (∀ (td : ResponseTypeDefinition) (st : GenState) (ct : String),
      mapGet (processContent td st ct).handled
          (prefixLeastSpecific ++ "." ++ "yaml" ++ "." ++ td.ResponseName) ≠
        mapGet st.handled (prefixLeastSpecific ++ "." ++ "yaml" ++ "." ++ td.ResponseName) →
      StringInArray ct contentTypesYAML = true) ∧
    (∀ (td : ResponseTypeDefinition) (st : GenState) (ct : String),
      mapGet (processContent td st ct).handled
          (prefixLeastSpecific ++ "." ++ "xml" ++ "." ++ td.ResponseName) ≠
        mapGet st.handled (prefixLeastSpecific ++ "." ++ "xml" ++ "." ++ td.ResponseName) →
      StringInArray ct contentTypesXML = true) := by
  refine ⟨rfl, rfl, rfl, ?_, ?_, ?_⟩
  · intro td st ct h
    unfold processContent at h
    by_cases h1 : td.TypeName = "interface\x7b\x7d"
    · rw [if_pos h1] at h
      exact absurd rfl h
    · rw [if_neg h1] at h
      by_cases h2 : StringInArray ct contentTypesJSON = true
      · exact h2
      · rw [if_neg h2] at h
        by_cases h3 : StringInArray ct contentTypesYAML = true
        · rw [if_pos h3] at h
          by_cases h4 : td.ContentTypeName = ct
          · rw [if_pos h4, setHandled_handled, buildUnmarshalCase_key,
              mapGet_mapSet_ne st.handled _ (json_yaml_key_ne td.ResponseName)] at h
            exact absurd rfl h
          · rw [if_neg h4] at h
            exact absurd rfl h
        · rw [if_neg h3] at h
          by_cases h5 : StringInArray ct contentTypesXML = true
          · rw [if_pos h5] at h
            by_cases h6 : td.ContentTypeName = ct
            · rw [if_pos h6, setHandled_handled, buildUnmarshalCase_key,
                mapGet_mapSet_ne st.handled _ (json_xml_key_ne td.ResponseName)] at h
              exact absurd rfl h
            · rw [if_neg h6] at h
              exact absurd rfl h
          · rw [if_neg h5, setUnhandled_handled] at h
            exact absurd rfl h
  · intro td st ct h
    unfold processContent at h
    by_cases h1 : td.TypeName = "interface\x7b\x7d"
    · rw [if_pos h1] at h
      exact absurd rfl h
    · rw [if_neg h1] at h
      by_cases h2 : StringInArray ct contentTypesJSON = true
      · rw [if_pos h2] at h
        by_cases h3 : td.ContentTypeName = ct
        · rw [if_pos h3, setHandled_handled, buildUnmarshalCase_key,
            mapGet_mapSet_ne st.handled _
              (fun he => json_yaml_key_ne td.ResponseName he.symm)] at h
          exact absurd rfl h
        · rw [if_neg h3] at h
          exact absurd rfl h
      · rw [if_neg h2] at h
        by_cases h4 : StringInArray ct contentTypesYAML = true
        · exact h4
        · rw [if_neg h4] at h
          by_cases h5 : StringInArray ct contentTypesXML = true
          · rw [if_pos h5] at h
            by_cases h6 : td.ContentTypeName = ct
            · rw [if_pos h6, setHandled_handled, buildUnmarshalCase_key,
                mapGet_mapSet_ne st.handled _ (yaml_xml_key_ne td.ResponseName)] at h
              exact absurd rfl h
            · rw [if_neg h6] at h
              exact absurd rfl h
          · rw [if_neg h5, setUnhandled_handled] at h
            exact absurd rfl h
  · intro td st ct h
    unfold processContent at h
    by_cases h1 : td.TypeName = "interface\x7b\x7d"
    · rw [if_pos h1] at h
      exact absurd rfl h
    · rw [if_neg h1] at h
      by_cases h2 : StringInArray ct contentTypesJSON = true
      · rw [if_pos h2] at h
        by_cases h3 : td.ContentTypeName = ct
        · rw [if_pos h3, setHandled_handled, buildUnmarshalCase_key,
            mapGet_mapSet_ne st.handled _
              (fun he => json_xml_key_ne td.ResponseName he.symm)] at h
          exact absurd rfl h
        · rw [if_neg h3] at h
          exact absurd rfl h
      · rw [if_neg h2] at h
        by_cases h4 : StringInArray ct contentTypesYAML = true
        · rw [if_pos h4] at h
          by_cases h5 : td.ContentTypeName = ct
          · rw [if_pos h5, setHandled_handled, buildUnmarshalCase_key,
              mapGet_mapSet_ne st.handled _
                (fun he => yaml_xml_key_ne td.ResponseName he.symm)] at h
            exact absurd rfl h
          · rw [if_neg h5] at h
            exact absurd rfl h
        · rw [if_neg h4] at h
          by_cases h6 : StringInArray ct contentTypesXML = true
          · exact h6
          · rw [if_neg h6, setUnhandled_handled] at h
            exact absurd rfl h

/-- Record with the open/untyped sentinel target type and a JSON content
type, used for C6. -/
def tdInterfaceJSON : ResponseTypeDefinition :=
  ⟨"interface\x7b\x7d", ⟨"interface\x7b\x7d"⟩, "200", "application/json"⟩

/-- Operation whose only classified record has the sentinel target type
and declares a JSON content type, used for C6. -/
def opInterfaceContent : OperationDefinition :=
  ⟨"Op6", [("200", ⟨some ⟨["application/json"]⟩⟩)], .ok [tdInterfaceJSON]⟩

/-- Record with the sentinel target type for a no-content response, used
for C6. -/
def tdInterface204 : ResponseTypeDefinition :=
  ⟨"interface\x7b\x7d", ⟨"interface\x7b\x7d"⟩, "204", ""⟩

/-- Operation pairing the sentinel record with a no-content response, used
for C6. -/
def opInterfaceNoContent : OperationDefinition :=
  ⟨"Op6b", [("204", ⟨some ⟨[]⟩⟩)], .ok [tdInterface204]⟩

/-- Counterexample to claim C6 as stated: for a classified record whose
target type is the sentinel "interface{}" and whose response declares a
content type, the synthesized output contains no clause at all for that
record's response key — the fragment is empty. -/
theorem interface_record_clause_ctrex :
    genResponseUnmarshal opInterfaceContent = some "" ∧
    emittedCaseClauses (genStateOf opInterfaceContent [tdInterfaceJSON]) = [] := by
  exact ⟨by decide, by decide⟩

/-- Claim C6 (amended): a record whose target type is the open sentinel
"interface{}" is skipped by the content loop entirely, so when its
response declares at least one content type the record yields no clause;
only the no-content path, which runs before the sentinel check, still
emits its no-op clause regardless of the target type. -/
theorem interface_records_excluded (op : OperationDefinition)
    (td : ResponseTypeDefinition) (st : GenState) :
    (∀ ct : String, td.TypeName = "interface\x7b\x7d" → processContent td st ct = st) ∧
    (∀ (ref : ResponseRef) (v : ResponseValue),
      mapGet op.Responses td.ResponseName = some ref → ref.Value = some v →
      v.Content ≠ [] → td.TypeName = "interface\x7b\x7d" → processTypeDef op st td = st) ∧
    (∀ (ref : ResponseRef) (v : ResponseValue),
      mapGet op.Responses td.ResponseName = some ref → ref.Value = some v →
      v.Content = [] →
      processTypeDef op st td = setUnhandled st
        ("case " ++ getConditionOfResponseName "rsp.StatusCode" td.ResponseName ++ ":")
        "break // No content-type") := by
  refine ⟨?_, ?_, ?_⟩
  · intro ct hi
    unfold processContent
    rw [if_pos hi]
  · intro ref v h hv hne hi
    simp only [processTypeDef, h, hv]
    rw [if_neg (fun hl => hne (List.length_eq_zero.mp hl))]
    exact foldl_fixed _ _ st (fun s c => by unfold processContent; rw [if_pos hi])
  · intro ref v h hv hc
    simp only [processTypeDef, h, hv]
    rw [if_pos (by rw [hc]; rfl)]

/-- Witness for the amended C6 on concrete operations: the sentinel record
with JSON content adds nothing, while the sentinel record of a no-content
response still yields the no-op clause. -/
theorem interface_records_excluded_witness :
    processContent tdInterfaceJSON ⟨[], [], []⟩ "application/json" = ⟨[], [], []⟩ ∧
    processTypeDef opInterfaceContent ⟨[], [], []⟩ tdInterfaceJSON = ⟨[], [], []⟩ ∧
    processTypeDef opInterfaceNoContent ⟨[], [], []⟩ tdInterface204 =
      setUnhandled ⟨[], [], []⟩
        ("case " ++ getConditionOfResponseName "rsp.StatusCode" "204" ++ ":")
        "break // No content-type" := by
  refine ⟨?_, ?_, ?_⟩
  · exact (interface_records_excluded opInterfaceContent tdInterfaceJSON ⟨[], [], []⟩).1
      "application/json" rfl
  · exact (interface_records_excluded opInterfaceContent tdInterfaceJSON ⟨[], [], []⟩).2.1
      ⟨some ⟨["application/json"]⟩⟩ ⟨["application/json"]⟩ rfl rfl (by decide) rfl
  · exact (interface_records_excluded opInterfaceNoContent tdInterface204 ⟨[], [], []⟩).2.2
      ⟨some ⟨[]⟩⟩ ⟨[]⟩ rfl rfl rfl

/-- Sentinel-typed record whose response content type is outside the three
families, used for C7. -/
def tdInterfaceOctet : ResponseTypeDefinition :=
  ⟨"interface\x7b\x7d", ⟨"interface\x7b\x7d"⟩, "404", "application/octet-stream"⟩

/-- Operation whose only record is sentinel-typed with an unsupported
content type, used for C7. -/
def opInterfaceOctet : OperationDefinition :=
  ⟨"Op7", [("404", ⟨some ⟨["application/octet-stream"]⟩⟩)], .ok [tdInterfaceOctet]⟩

/-- Counterexample to claim C7 as stated: a response whose content type
lies outside the JSON/YAML/XML families yields no unhandled clause when
the record's target type is the "interface{}" sentinel — the output is the
empty fragment with no clause bearing the unsupported comment. -/
theorem unsupported_clause_ctrex :
    genResponseUnmarshal opInterfaceOctet = some "" ∧
    emittedCaseClauses (genStateOf opInterfaceOctet [tdInterfaceOctet]) = [] := by
  exact ⟨by decide, by decide⟩

/-- Claim C7 (amended): a response key declaring no content types yields
an unhandled clause whose body is the no-op break acknowledgment with a
no-content comment; a content type outside the JSON/YAML/XML families
yields, provided the record's target type is not the "interface{}"
sentinel, an unhandled clause bearing the explanatory unsupported comment
and no decode body; neither situation is an error and generation
proceeds. -/
theorem unhandled_clause_generation (op : OperationDefinition)
    (td : ResponseTypeDefinition) (st : GenState) :
    (∀ (ref : ResponseRef) (v : ResponseValue),
      mapGet op.Responses td.ResponseName = some ref → ref.Value = some v →
      v.Content = [] →
      processTypeDef op st td = setUnhandled st
        ("case " ++ getConditionOfResponseName "rsp.StatusCode" td.ResponseName ++ ":")
        "break // No content-type") ∧
    (∀ ct : String, td.TypeName ≠ "interface\x7b\x7d" →
      StringInArray ct contentTypesJSON = false →
      StringInArray ct contentTypesYAML = false →
      StringInArray ct contentTypesXML = false →
      processContent td st ct = setUnhandled st
        ("case " ++ getConditionOfResponseName "rsp.StatusCode" td.ResponseName ++ ":")
        ("// Content-type (" ++ ct ++ ") unsupported")) ∧
    (∀ tds : List ResponseTypeDefinition, op.GetResponseTypeDefinitions = .ok tds →
      (genResponseUnmarshal op).isSome = true) := by
  refine ⟨?_, ?_, ?_⟩
  · intro ref v h hv hc
    simp only [processTypeDef, h, hv]
    rw [if_pos (by rw [hc]; rfl)]
  · intro ct hi hj hy hx
    unfold processContent
    rw [if_neg hi, if_neg (by rw [hj]; simp), if_neg (by rw [hy]; simp),
      if_neg (by rw [hx]; simp)]
  · intro tds hok
    exact genResponseUnmarshal_isSome_of_ok hok

/-- Non-sentinel record for a no-content "204" response, used to witness
C7. -/
def tdNoContent204 : ResponseTypeDefinition := ⟨"T204", ⟨"T204"⟩, "204", ""⟩

/-- Operation with a no-content "204" response, used to witness C7. -/
def opNoContent204 : OperationDefinition :=
  ⟨"Op7b", [("204", ⟨some ⟨[]⟩⟩)], .ok [tdNoContent204]⟩

/-- Non-sentinel record carrying an unsupported content type, used to
witness C7. -/
def tdOctet : ResponseTypeDefinition := ⟨"T404", ⟨"T404"⟩, "404", "application/octet-stream"⟩

/-- Witness for the amended C7 on concrete inputs: the no-content clause,
the unsupported-content clause, and a successful generation outcome. -/
theorem unhandled_clause_generation_witness :
    processTypeDef opNoContent204 ⟨[], [], []⟩ tdNoContent204 =
      setUnhandled ⟨[], [], []⟩
        ("case " ++ getConditionOfResponseName "rsp.StatusCode" "204" ++ ":")
        "break // No content-type" ∧
    processContent tdOctet ⟨[], [], []⟩ "application/octet-stream" =
      setUnhandled ⟨[], [], []⟩
        ("case " ++ getConditionOfResponseName "rsp.StatusCode" "404" ++ ":")
        ("// Content-type (" ++ "application/octet-stream" ++ ") unsupported") ∧
    (genResponseUnmarshal opNoContent204).isSome = true := by
  refine ⟨?_, ?_, ?_⟩
  · exact (unhandled_clause_generation opNoContent204 tdNoContent204 ⟨[], [], []⟩).1
      ⟨some ⟨[]⟩⟩ ⟨[]⟩ rfl rfl rfl
  · exact (unhandled_clause_generation opNoContent204 tdOctet ⟨[], [], []⟩).2.1
      "application/octet-stream" (by decide) (by decide) (by decide) (by decide)
  · exact (unhandled_clause_generation opNoContent204 tdNoContent204 ⟨[], [], []⟩).2.2
      [tdNoContent204] rfl

/-- Claim C4: records reducing to the same composite sort key are
deduplicated: each clause map has duplicate-free keys, the emitted key
sequence has no duplicate sort key (so exactly one clause appears per
key), the number of emitted clauses equals the number of distinct keys,
and the value stored at a key is the last-assigned body for that key. -/
theorem clause_dedup_by_sort_key (op : OperationDefinition)
    (tds : List ResponseTypeDefinition) :
    ((genStateOf op tds).handled.map Prod.fst).Nodup ∧
    ((genStateOf op tds).unhandled.map Prod.fst).Nodup ∧
    (emittedClauseKeys (genStateOf op tds)).Nodup ∧
    (emittedCaseClauses (genStateOf op tds)).length =
      (emittedClauseKeys (genStateOf op tds)).length ∧
    (∀ (m : List (String × String)) (k v : String), mapGet (mapSet m k v) k = some v) := by
  obtain ⟨h1, h2, h3, h4⟩ := goodState_genStateOf op tds
  refine ⟨h1, h2, ?_, ?_, fun m k v => mapGet_mapSet_self m k v⟩
  · unfold emittedClauseKeys
    rw [List.nodup_append]
    refine ⟨nodup_sortedStringKeys h1, nodup_sortedStringKeys h2, ?_⟩
    intro x hx hx'
    have hs1 := h3 x (mem_sortedStringKeys.mp hx)
    have hs2 := h4 x (mem_sortedStringKeys.mp hx')
    exact handledShape_ne_unhandledShape hs1 hs2 rfl
  · unfold emittedCaseClauses emittedClauseKeys
    simp

/-- Classified records of the C2 counterexample: a no-content "200" and a
JSON-handled "default". -/
def tdsDefaultHandled : List ResponseTypeDefinition :=
  [⟨"X200", ⟨"X200"⟩, "200", "application/json"⟩,
   ⟨"JSONDefault", ⟨"JSONDefault"⟩, "default", "application/json"⟩]

/-- Operation whose "default" response is handled (decodable JSON) while
its "200" response is unhandled (no content), used for C2. -/
def opDefaultHandled : OperationDefinition :=
  ⟨"Op2", [("200", ⟨some ⟨[]⟩⟩), ("default", ⟨some ⟨["application/json"]⟩⟩)],
   .ok tdsDefaultHandled⟩

/-- Counterexample to claim C2 as stated: when the "default" response is
handled and another response is unhandled, the default clause (whose
status condition is the literal true) is emitted FIRST, and the last
clause of the fragment is the "200" no-content clause, so the default
clause is not last. -/
theorem default_clause_last_ctrex :
    emittedClauseKeys (genStateOf opDefaultHandled tdsDefaultHandled) =
      ["9.json.default", "9case rsp.StatusCode == 200:"] ∧
    (emittedCaseClauses (genStateOf opDefaultHandled tdsDefaultHandled)).getLast? =
      some "case rsp.StatusCode == 200:\nbreak // No content-type\n" := by
  exact ⟨by decide, by decide⟩

/-- Claim C2 (amended): whenever the "default" response yields an
UNHANDLED clause — the unhandled map holds the key "9case true:", whose
clause condition is the literal true — that clause is the last clause of
the emitted fragment, regardless of whether other handled or unhandled
clauses exist; a handled "default" clause, by contrast, is emitted within
the handled group and need not be last. -/
theorem default_unhandled_clause_last (op : OperationDefinition)
    (tds : List ResponseTypeDefinition) (c : String)
    (hok : op.GetResponseTypeDefinitions = .ok tds)
    (hc : mapGet (genStateOf op tds).unhandled "9case true:" = some c) :
    (emittedCaseClauses (genStateOf op tds)).getLast? = some c ∧
    genResponseUnmarshal op =
      some ("switch \x7b\n" ++
        String.join ((emittedCaseClauses (genStateOf op tds)).map (fun cl => cl ++ "\n")) ++
        "\x7d\n") := by
  obtain ⟨_, _, _, hshape⟩ := goodState_genStateOf op tds
  have hmem : "9case true:" ∈ (genStateOf op tds).unhandled.map Prod.fst :=
    mem_keys_of_mapGet hc
  have hmemS : "9case true:" ∈ SortedStringKeys (genStateOf op tds).unhandled :=
    mem_sortedStringKeys.mpr hmem
  have hall : ∀ y ∈ SortedStringKeys (genStateOf op tds).unhandled, strLeP y "9case true:" := by
    intro y hy
    obtain ⟨rn, hrn⟩ := hshape y (mem_sortedStringKeys.mp hy)
    subst hrn
    have h := unhandled_key_le_default rn
    have hgr : prefixLeastSpecific ++
        ("case " ++ getConditionOfResponseName "rsp.StatusCode" "default" ++ ":") =
        "9case true:" := by decide
    rwa [hgr] at h
  have hlast : (SortedStringKeys (genStateOf op tds).unhandled).getLast? =
      some "9case true:" :=
    sorted_getLast?_eq (sorted_sortedStringKeys _) hmemS hall
  have hne : (SortedStringKeys (genStateOf op tds).unhandled).map
      (fun k => (mapGet (genStateOf op tds).unhandled k).getD "") ≠ [] := by
    intro hnil
    rw [List.map_eq_nil_iff] at hnil
    rw [hnil] at hmemS
    simp at hmemS
  have hfirst : (emittedCaseClauses (genStateOf op tds)).getLast? = some c := by
    unfold emittedCaseClauses
    rw [List.getLast?_append_of_ne_nil _ hne, List.getLast?_map, hlast]
    simp [hc]
  refine ⟨hfirst, ?_⟩
  have htds : ¬tds.length = 0 := by
    intro h0
    have h0' := List.length_eq_zero.mp h0
    subst h0'
    simp [genStateOf, mapGet] at hc
  have hmaps : ¬((genStateOf op tds).handled.length + (genStateOf op tds).unhandled.length = 0) := by
    intro h0
    have hu : (genStateOf op tds).unhandled = [] := by
      refine List.length_eq_zero.mp ?_
      omega
    rw [hu] at hmem
    simp at hmem
  simp only [genResponseUnmarshal, hok]
  rw [if_neg htds, if_neg hmaps]

/-- Classified records used to witness the amended C2: a JSON-handled
"200" and a no-content "default". -/
def tdsDefaultUnhandled : List ResponseTypeDefinition :=
  [⟨"JSON200", ⟨"JSON200"⟩, "200", "application/json"⟩,
   ⟨"XDefault", ⟨"XDefault"⟩, "default", ""⟩]

/-- Operation whose "default" response is unhandled (no content), used to
witness the amended C2. -/
def opDefaultUnhandled : OperationDefinition :=
  ⟨"Op2w", [("200", ⟨some ⟨["application/json"]⟩⟩), ("default", ⟨some ⟨[]⟩⟩)],
   .ok tdsDefaultUnhandled⟩

/-- Witness for the amended C2: with an unhandled "default" and a handled
"200", the default clause is the last clause of the emitted fragment. -/
theorem default_unhandled_clause_last_witness :
    opDefaultUnhandled.GetResponseTypeDefinitions = .ok tdsDefaultUnhandled ∧
    mapGet (genStateOf opDefaultUnhandled tdsDefaultUnhandled).unhandled "9case true:" =
      some "case true:\nbreak // No content-type\n" ∧
    (emittedCaseClauses (genStateOf opDefaultUnhandled tdsDefaultUnhandled)).getLast? =
      some "case true:\nbreak // No content-type\n" := by
  refine ⟨rfl, by decide, ?_⟩
  exact (default_unhandled_clause_last opDefaultUnhandled tdsDefaultUnhandled
    "case true:\nbreak // No content-type\n" rfl (by decide)).1

/-- Classified records of the C1 counterexample: a no-content "200", a
JSON-handled "2XX" and a JSON-handled "default". -/
def tdsMixedPrecedence : List ResponseTypeDefinition :=
  [⟨"X200", ⟨"X200"⟩, "200", "application/json"⟩,
   ⟨"JSON2XX", ⟨"JSON2XX"⟩, "2XX", "application/json"⟩,
   ⟨"JSONDefault", ⟨"JSONDefault"⟩, "default", "application/json"⟩]

/-- Operation whose response keys include the exact code "200", the range
wildcard "2XX" covering its family, and "default", used for C1. -/
def opMixedPrecedence : OperationDefinition :=
  ⟨"Op1", [("200", ⟨some ⟨[]⟩⟩), ("2XX", ⟨some ⟨["application/json"]⟩⟩),
    ("default", ⟨some ⟨["application/json"]⟩⟩)],
   .ok tdsMixedPrecedence⟩

/-- Counterexample to claim C1 as stated: for an operation whose response
keys include the exact code "200", the covering range wildcard "2XX" and
"default", the emitted clause order is range, then default, then exact —
the exact-code clause comes last, not strictly before the range clause. -/
theorem precedence_order_ctrex :
    emittedClauseKeys (genStateOf opMixedPrecedence tdsMixedPrecedence) =
      ["9.json.2XX", "9.json.default", "9case rsp.StatusCode == 200:"] := by
  decide

/-- Claim C1 (amended): among handled clauses sharing one content-type
tag, the emitted order does follow exact code before range wildcard before
default: whenever the handled clause map holds keys for an exact 3-digit
code, for the range wildcard of that code's family, and for "default",
all with the same content-type tag, the emitted key sequence places the
exact-code key strictly before the range key and the range key strictly
before the default key.  (Across the handled/unhandled split, or across
different content-type tags, the order fails, as the counterexample
shows.) -/
theorem handled_precedence_order (op : OperationDefinition)
    (tds : List ResponseTypeDefinition) (ct e r : String) (d c1 c2 : Char)
    (he : e.data = [d, c1, c2]) (hr : r.data = [d, 'X', 'X'])
    (hd0 : '0' ≤ d) (hd9 : d ≤ '9') (hc10 : '0' ≤ c1) (hc19 : c1 ≤ '9')
    (hc20 : '0' ≤ c2) (hc29 : c2 ≤ '9')
    (hE : prefixLeastSpecific ++ "." ++ ct ++ "." ++ e ∈
      (genStateOf op tds).handled.map Prod.fst)
    (hR : prefixLeastSpecific ++ "." ++ ct ++ "." ++ r ∈
      (genStateOf op tds).handled.map Prod.fst)
    (hD : prefixLeastSpecific ++ "." ++ ct ++ "." ++ "default" ∈
      (genStateOf op tds).handled.map Prod.fst) :
    (emittedClauseKeys (genStateOf op tds)).indexOf
        (prefixLeastSpecific ++ "." ++ ct ++ "." ++ e) <
      (emittedClauseKeys (genStateOf op tds)).indexOf
        (prefixLeastSpecific ++ "." ++ ct ++ "." ++ r) ∧
    (emittedClauseKeys (genStateOf op tds)).indexOf
        (prefixLeastSpecific ++ "." ++ ct ++ "." ++ r) <
      (emittedClauseKeys (genStateOf op tds)).indexOf
        (prefixLeastSpecific ++ "." ++ ct ++ "." ++ "default") := by
  have hsorted := sorted_sortedStringKeys (genStateOf op tds).handled
  have hE' := mem_sortedStringKeys.mpr hE
  have hR' := mem_sortedStringKeys.mpr hR
  have hD' := mem_sortedStringKeys.mpr hD
  have hRE : strLe (prefixLeastSpecific ++ "." ++ ct ++ "." ++ r)
      (prefixLeastSpecific ++ "." ++ ct ++ "." ++ e) = false := by
    refine handled_key_strLe_false ct ?_
    rw [hr, he]
    rw [show ([d, 'X', 'X'] : List Char) = d :: ['X', 'X'] from rfl,
      show ([d, c1, c2] : List Char) = d :: [c1, c2] from rfl, charListLe_cons_self]
    exact charListLe_cons_gt (lt_of_le_of_lt hc19 (by decide)) _ _
  have hDR : strLe (prefixLeastSpecific ++ "." ++ ct ++ "." ++ "default")
      (prefixLeastSpecific ++ "." ++ ct ++ "." ++ r) = false := by
    refine handled_key_strLe_false ct ?_
    rw [hr]
    rw [show ("default" : String).data = 'd' :: ['e', 'f', 'a', 'u', 'l', 't'] from rfl,
      show ([d, 'X', 'X'] : List Char) = d :: ['X', 'X'] from rfl]
    exact charListLe_cons_gt (lt_of_le_of_lt hd9 (by decide)) _ _
  have i1 := sorted_indexOf_lt hsorted hE' hR' hRE
  have i2 := sorted_indexOf_lt hsorted hR' hD' hDR
  unfold emittedClauseKeys
  rw [List.indexOf_append_of_mem hE', List.indexOf_append_of_mem hR',
    List.indexOf_append_of_mem hD']
  exact ⟨i1, i2⟩

/-- Classified records used to witness the amended C1: JSON-handled
"200", "2XX" and "default". -/
def tdsAllHandled : List ResponseTypeDefinition :=
  [⟨"JSON200", ⟨"JSON200"⟩, "200", "application/json"⟩,
   ⟨"JSONDefault", ⟨"JSONDefault"⟩, "default", "application/json"⟩,
   ⟨"JSON2XX", ⟨"JSON2XX"⟩, "2XX", "application/json"⟩]

/-- Operation whose "200", "2XX" and "default" responses are all handled
JSON responses, used to witness the amended C1. -/
def opAllHandled : OperationDefinition :=
  ⟨"Op1w", [("200", ⟨some ⟨["application/json"]⟩⟩),
    ("2XX", ⟨some ⟨["application/json"]⟩⟩),
    ("default", ⟨some ⟨["application/json"]⟩⟩)],
   .ok tdsAllHandled⟩

/-- Witness for the amended C1: with "200", "2XX" and "default" all
handled as JSON, the emitted order is exact, then range, then default. -/
theorem handled_precedence_order_witness :
    (prefixLeastSpecific ++ "." ++ "json" ++ "." ++ "200" ∈
        (genStateOf opAllHandled tdsAllHandled).handled.map Prod.fst ∧
      prefixLeastSpecific ++ "." ++ "json" ++ "." ++ "2XX" ∈
        (genStateOf opAllHandled tdsAllHandled).handled.map Prod.fst ∧
      prefixLeastSpecific ++ "." ++ "json" ++ "." ++ "default" ∈
        (genStateOf opAllHandled tdsAllHandled).handled.map Prod.fst) ∧
    ((emittedClauseKeys (genStateOf opAllHandled tdsAllHandled)).indexOf
        (prefixLeastSpecific ++ "." ++ "json" ++ "." ++ "200") <
      (emittedClauseKeys (genStateOf opAllHandled tdsAllHandled)).indexOf
        (prefixLeastSpecific ++ "." ++ "json" ++ "." ++ "2XX") ∧
      (emittedClauseKeys (genStateOf opAllHandled tdsAllHandled)).indexOf
        (prefixLeastSpecific ++ "." ++ "json" ++ "." ++ "2XX") <
      (emittedClauseKeys (genStateOf opAllHandled tdsAllHandled)).indexOf
        (prefixLeastSpecific ++ "." ++ "json" ++ "." ++ "default")) := by
  refine ⟨⟨by decide, by decide, by decide⟩, ?_⟩
  exact handled_precedence_order opAllHandled tdsAllHandled "json" "200" "2XX" '2' '0' '0'
    (by decide) (by decide) (by decide) (by decide) (by decide) (by decide)
    (by decide) (by decide) (by decide) (by decide) (by decide)

/-- Claim C8: `genResponseUnmarshal` is deterministic: two operation values
denoting the same data — same identifier, same classification, and
response maps that agree as Go maps even when their entries or content
keys are enumerated in different orders — produce byte-identical output
fragments, because iteration over content types and over the accumulated
clause maps goes through sorted key orders. -/
theorem genResponseUnmarshal_deterministic (op₁ op₂ : OperationDefinition)
    (hid : op₁.OperationId = op₂.OperationId)
    (htd : op₁.TypeDefinitionsResult = op₂.TypeDefinitionsResult)
    (hresp : ResponsesEquiv op₁.Responses op₂.Responses) :
    genResponseUnmarshal op₁ = genResponseUnmarshal op₂ := by
  have hg : ∀ tds, genStateOf op₁ tds = genStateOf op₂ tds :=
    fun tds => genStateOf_congr hid hresp tds
  unfold genResponseUnmarshal OperationDefinition.GetResponseTypeDefinitions
  rw [htd]
  cases op₂.TypeDefinitionsResult with
  | error e => rfl
  | ok tds => simp only [hg]

/-- First enumeration of the witness operation for C8. -/
def opEnumA : OperationDefinition :=
  ⟨"Op8", [("200", ⟨some ⟨["text/xml", "application/json"]⟩⟩), ("default", ⟨none⟩)],
   .ok [⟨"JSON200", ⟨"JSON200"⟩, "200", "application/json"⟩,
        ⟨"XML200", ⟨"XML200"⟩, "200", "text/xml"⟩]⟩

/-- Second enumeration of the same operation: the response entries and the
content keys of "200" appear in a different order. -/
def opEnumB : OperationDefinition :=
  ⟨"Op8", [("default", ⟨none⟩), ("200", ⟨some ⟨["application/json", "text/xml"]⟩⟩)],
   .ok [⟨"JSON200", ⟨"JSON200"⟩, "200", "application/json"⟩,
        ⟨"XML200", ⟨"XML200"⟩, "200", "text/xml"⟩]⟩

/-- Witness for C8: the two enumerations of the same operation value
produce identical fragments. -/
theorem genResponseUnmarshal_deterministic_witness :
    opEnumA.OperationId = opEnumB.OperationId ∧
    opEnumA.TypeDefinitionsResult = opEnumB.TypeDefinitionsResult ∧
    ResponsesEquiv opEnumA.Responses opEnumB.Responses ∧
    genResponseUnmarshal opEnumA = genResponseUnmarshal opEnumB := by
  have hresp : ResponsesEquiv opEnumA.Responses opEnumB.Responses := by
    intro k
    by_cases h1 : k = "200"
    · subst h1
      show (["text/xml", "application/json"] : List String).Perm
        ["application/json", "text/xml"]
      decide
    · by_cases h2 : k = "default"
      · subst h2
        show True
        trivial
      · have e1 : (("200" : String) == k) = false := by
          simp [Ne.symm h1]
        have e2 : (("default" : String) == k) = false := by
          simp [Ne.symm h2]
        show OptionRefEquiv (mapGet opEnumA.Responses k) (mapGet opEnumB.Responses k)
        unfold opEnumA opEnumB mapGet
        simp only [List.find?, e1, e2]
        trivial
  exact ⟨rfl, rfl, hresp,
    genResponseUnmarshal_deterministic opEnumA opEnumB rfl rfl hresp⟩

/-- Record used to witness C9 across the three families. -/
def tdFamilies (rn ct : String) : ResponseTypeDefinition := ⟨"T", ⟨"T"⟩, rn, ct⟩

/-- Witness for C9: inserting the handled clause for each family at a
concrete record changes that family's key, and the membership conclusion
holds for each family's canonical media type. -/
theorem contentType_family_tables_witness :
    StringInArray "application/json" contentTypesJSON = true ∧
    StringInArray "text/yaml" contentTypesYAML = true ∧
    StringInArray "text/xml" contentTypesXML = true := by
  refine ⟨?_, ?_, ?_⟩
  · exact contentType_family_tables.2.2.2.1 (tdFamilies "200" "application/json")
      ⟨[], [], []⟩ "application/json" (by decide)
  · exact contentType_family_tables.2.2.2.2.1 (tdFamilies "200" "text/yaml")
      ⟨[], [], []⟩ "text/yaml" (by decide)
  · exact contentType_family_tables.2.2.2.2.2 (tdFamilies "200" "text/xml")
      ⟨[], [], []⟩ "text/xml" (by decide)
